import Mathlib

/-!
Verification of the link-previewer backend (src/backend/app) against its
specification.  The Python modules `unfurl.py`, `models.py` and `main.py`
are shallowly embedded: Python strings become `List Char`, the parsed
BeautifulSoup document becomes a list of structured tags in document
order, and the handler's exception flow becomes explicit case analysis
over a classified fetch outcome.
-/

set_option maxRecDepth 4000

/-- Python strings are modelled as lists of characters. -/
abbrev PyStr := List Char

/-- Whitespace test used by Python's `str.strip()`; modelled by
`Char.isWhitespace`. -/
def isPySpace (c : Char) : Bool := c.isWhitespace

/-- Left part of Python's `str.strip()`: drop leading whitespace. -/
def lstrip (s : PyStr) : PyStr := s.dropWhile isPySpace

/-- Right part of Python's `str.strip()`: drop trailing whitespace. -/
def rstrip (s : PyStr) : PyStr := (s.reverse.dropWhile isPySpace).reverse

/-- Python's `str.strip()`: drop leading and trailing whitespace. -/
def pyStrip (s : PyStr) : PyStr := lstrip (rstrip s)

/-- Python's `str.split(sep)` for a single-character separator: always
returns at least one (possibly empty) piece. -/
def pySplitOn (sep : Char) : PyStr → List PyStr
  | [] => [[]]
  | c :: rest =>
    if c = sep then [] :: pySplitOn sep rest
    else
      match pySplitOn sep rest with
      | [] => [[c]]
      | p :: ps => (c :: p) :: ps

/-- Merge of two split results across a concatenation point: the last
piece of the first result is glued to the first piece of the second. -/
def combineSplits : List PyStr → List PyStr → List PyStr
  | [], bs => bs
  | [a], [] => [a]
  | [a], b :: bs => (a ++ b) :: bs
  | a :: as, bs => a :: combineSplits as bs

/-- Python's `needle == haystack[:len(needle)]` test. -/
def strStartsWith : PyStr → PyStr → Bool
  | [], _ => true
  | _ :: _, [] => false
  | c :: cs, d :: ds => c == d && strStartsWith cs ds

/-- Python's substring test `needle in haystack` (arguments: haystack,
then needle). -/
def strContains : PyStr → PyStr → Bool
  | [], needle => needle.isEmpty
  | c :: rest, needle => strStartsWith needle (c :: rest) || strContains rest needle

/-- Decimal rendering of a natural number, as used by Python f-strings. -/
def natToStr (n : Nat) : PyStr := Nat.toDigits 10 n

/-- Space-join of a multi-valued attribute, as BeautifulSoup presents it
when matching a multi-token query string. -/
def joinSpaces : List PyStr → PyStr
  | [] => []
  | [r] => r
  | r :: rs => r ++ ' ' :: joinSpaces rs

/-- One element of the parsed document, in document order.  `meta` carries
the `property`, `name` and `content` attributes; `link` carries the
multi-valued `rel` attribute (absent vs present list, as BeautifulSoup
reports it) and `href`; `title` carries the `.string` of a `<title>`
element (absent when the element has no single text child). -/
inductive Tag where
  | meta (prop : Option PyStr) (nm : Option PyStr) (content : Option PyStr)
  | link (rel : Option (List PyStr)) (href : Option PyStr)
  | title (text : Option PyStr)
  | other

deriving instance DecidableEq for Tag

/-- A parsed document: its tags in document order.  This models the
BeautifulSoup object built by `parse_html`; the parser itself is an
external library, so HTML text is represented by its parse result. -/
abbrev Soup := List Tag

/-- The `content` attribute of a meta tag (`tag.get("content")`). -/
def contentOf : Tag → Option PyStr
  | Tag.meta _ _ c => c
  | _ => none

/-- The `href` attribute of a link tag (`link.get("href")`). -/
def hrefOf : Tag → Option PyStr
  | Tag.link _ h => h
  | _ => none

/-- The `.string` of a `<title>` element. -/
def titleTextOf : Tag → Option PyStr
  | Tag.title t => t
  | _ => none

/-- Predicate for `soup.find("title")`. -/
def isTitleTag : Tag → Bool
  | Tag.title _ => true
  | _ => false

/-- Predicate for `soup.find("meta", property=key)`: a meta tag whose
`property` attribute equals the key. -/
def isMetaWithProp (key : PyStr) : Tag → Bool
  | Tag.meta (some p) _ _ => p == key
  | _ => false

/-- Predicate for `soup.find("meta", attrs={"name": key})`: a meta tag
whose `name` attribute equals the key. -/
def isMetaWithName (key : PyStr) : Tag → Bool
  | Tag.meta _ (some n) _ => n == key
  | _ => false

/-- First meta tag matched by `property`. -/
def findMetaByProp (soup : Soup) (key : PyStr) : Option Tag :=
  soup.find? (isMetaWithProp key)

/-- First meta tag matched by `name`. -/
def findMetaByName (soup : Soup) (key : PyStr) : Option Tag :=
  soup.find? (isMetaWithName key)

/-- BeautifulSoup's match of a string query against the multi-valued
`rel` attribute of a link tag: the query matches one of the tokens, or
the whole space-joined attribute. -/
def relQueryMatches (q : PyStr) : Tag → Bool
  | Tag.link (some rel) _ => rel.contains q || joinSpaces rel == q
  | _ => false

/-- The catch-all favicon filter `lambda x: x and "icon" in x if
isinstance(x, list) else x == "icon"` from `extract_favicon`: a link
whose present, non-empty `rel` list contains the exact token `icon`. -/
def relTokenIcon : Tag → Bool
  | Tag.link (some rel) _ => !rel.isEmpty && rel.contains ("icon".toList)
  | _ => false

/-- Python truthiness of an optional string (`if x:`). -/
def pyTruthy : Option PyStr → Bool
  | some s => !s.isEmpty
  | none => false

/-- Valid characters after the first in a URL scheme (RFC 3986). -/
def isSchemeChar (c : Char) : Bool := c.isAlphanum || c == '+' || c == '-' || c == '.'

/-- Split a string `scheme:rest` into its scheme and remainder, when the
string begins with a syntactically valid scheme; `none` otherwise. -/
def schemeSplit : PyStr → Option (PyStr × PyStr)
  | [] => none
  | c :: r0 =>
    if c.isAlpha then
      match r0.dropWhile isSchemeChar with
      | ':' :: rest => some (c :: r0.takeWhile isSchemeChar, rest)
      | _ => none
    else none

/-- A string is an absolute URL when it carries a scheme. -/
def isAbsoluteUrl (s : PyStr) : Bool := (schemeSplit s).isSome

/-- The directory part of a path: everything up to and including the last
slash, or the root slash when the path has none. -/
def dirOf (path : PyStr) : PyStr :=
  let r := path.reverse.dropWhile (fun c => !(c == '/'))
  if r = [] then ['/'] else r.reverse

/-- The authority (host) component of the part of an absolute URL that
follows `scheme:`, assuming the usual `//authority/path` shape. -/
def authorityOf (rest : PyStr) : PyStr :=
  (rest.drop 2).takeWhile (fun c => !(c == '/'))

/-- The path component of the part of an absolute URL that follows
`scheme:`, assuming the usual `//authority/path` shape. -/
def pathOf (rest : PyStr) : PyStr :=
  (rest.drop 2).dropWhile (fun c => !(c == '/'))

/-- Modelled from the spec: `urllib.parse.urljoin` from the Python
standard library is not part of this repository; the spec (section 4.2,
step 3) states standard RFC 3986 base-URL plus relative-reference
resolution, with absolute source values passing through unchanged and
scheme-relative and path-relative values resolved against the page URL's
scheme, host and path.  Dot-segment normalisation and query/fragment
handling are omitted; they do not affect which component of the base is
reused. -/
def urljoin (base rel : PyStr) : PyStr :=
  if rel = [] then base
  else if (schemeSplit rel).isSome then rel
  else
    match schemeSplit base with
    | none => rel
    | some (sch, rest) =>
      if rel.take 2 = ['/', '/'] then sch ++ ':' :: rel
      else if rel.take 1 = ['/'] then sch ++ ':' :: '/' :: '/' :: (authorityOf rest ++ rel)
      else sch ++ ':' :: '/' :: '/' :: (authorityOf rest ++ (dirOf (pathOf rest) ++ rel))

/-- The second probe of `extract_meta_tag` from unfurl.py: the first
meta tag matched by `name`, returning its stripped content when that
content is truthy. -/
def metaNameProbe (soup : Soup) (property_name : PyStr) : Option PyStr :=
  match findMetaByName soup property_name with
  | some tag =>
    match contentOf tag with
    | some c => if c = [] then none else some (pyStrip c)
    | none => none
  | none => none

/-- `extract_meta_tag` from unfurl.py: try the `property` attribute
first; if a matching tag with a truthy `content` is found return the
stripped content, otherwise probe the `name` attribute the same way. -/
def extract_meta_tag (soup : Soup) (property_name : PyStr) : Option PyStr :=
  match findMetaByProp soup property_name with
  | some tag =>
    match contentOf tag with
    | some c => if c = [] then metaNameProbe soup property_name else some (pyStrip c)
    | none => metaNameProbe soup property_name
  | none => metaNameProbe soup property_name

/-- `extract_title` from unfurl.py: og:title, then twitter:title, then
the `<title>` element's string, stripped. -/
def extract_title (soup : Soup) : Option PyStr :=
  let t1 := extract_meta_tag soup ("og:title".toList)
  if pyTruthy t1 then t1 else
  let t2 := extract_meta_tag soup ("twitter:title".toList)
  if pyTruthy t2 then t2 else
  match soup.find? isTitleTag with
  | some tt =>
    match titleTextOf tt with
    | some s => if s = [] then none else some (pyStrip s)
    | none => none
  | none => none

/-- `extract_description` from unfurl.py. -/
def extract_description (soup : Soup) : Option PyStr :=
  let d1 := extract_meta_tag soup ("og:description".toList)
  if pyTruthy d1 then d1 else
  let d2 := extract_meta_tag soup ("twitter:description".toList)
  if pyTruthy d2 then d2 else
  let d3 := extract_meta_tag soup ("description".toList)
  if pyTruthy d3 then d3 else
  none

/-- `extract_image` from unfurl.py: og:image then twitter:image, each
resolved against the base URL. -/
def extract_image (soup : Soup) (base_url : PyStr) : Option PyStr :=
  let i1 := extract_meta_tag soup ("og:image".toList)
  if pyTruthy i1 then Option.map (urljoin base_url) i1 else
  let i2 := extract_meta_tag soup ("twitter:image".toList)
  if pyTruthy i2 then Option.map (urljoin base_url) i2 else
  none

/-- `extract_site_name` from unfurl.py: the og:site_name lookup returned
directly, with no truthiness guard. -/
def extract_site_name (soup : Soup) : Option PyStr :=
  extract_meta_tag soup ("og:site_name".toList)

/-- `extract_type` from unfurl.py. -/
def extract_type (soup : Soup) : Option PyStr :=
  extract_meta_tag soup ("og:type".toList)

/-- `extract_locale` from unfurl.py. -/
def extract_locale (soup : Soup) : Option PyStr :=
  extract_meta_tag soup ("og:locale".toList)

/-- `extract_author` from unfurl.py. -/
def extract_author (soup : Soup) : Option PyStr :=
  let a1 := extract_meta_tag soup ("article:author".toList)
  if pyTruthy a1 then a1 else
  let a2 := extract_meta_tag soup ("author".toList)
  if pyTruthy a2 then a2 else
  none

/-- `extract_publisher` from unfurl.py. -/
def extract_publisher (soup : Soup) : Option PyStr :=
  let p1 := extract_meta_tag soup ("article:publisher".toList)
  if pyTruthy p1 then p1 else
  let p2 := extract_meta_tag soup ("publisher".toList)
  if pyTruthy p2 then p2 else
  none

/-- `extract_published_time` from unfurl.py. -/
def extract_published_time (soup : Soup) : Option PyStr :=
  let t1 := extract_meta_tag soup ("article:published_time".toList)
  if pyTruthy t1 then t1 else
  let t2 := extract_meta_tag soup ("og:published_time".toList)
  if pyTruthy t2 then t2 else
  let t3 := extract_meta_tag soup ("date".toList)
  if pyTruthy t3 then t3 else
  none

/-- `extract_modified_time` from unfurl.py. -/
def extract_modified_time (soup : Soup) : Option PyStr :=
  let t1 := extract_meta_tag soup ("article:modified_time".toList)
  if pyTruthy t1 then t1 else
  let t2 := extract_meta_tag soup ("og:updated_time".toList)
  if pyTruthy t2 then t2 else
  none

/-- `extract_video_url` from unfurl.py. -/
def extract_video_url (soup : Soup) (base_url : PyStr) : Option PyStr :=
  let v1 := extract_meta_tag soup ("og:video:url".toList)
  if pyTruthy v1 then Option.map (urljoin base_url) v1 else
  let v2 := extract_meta_tag soup ("og:video".toList)
  if pyTruthy v2 then Option.map (urljoin base_url) v2 else
  let v3 := extract_meta_tag soup ("og:video:secure_url".toList)
  if pyTruthy v3 then Option.map (urljoin base_url) v3 else
  none

/-- `extract_audio_url` from unfurl.py. -/
def extract_audio_url (soup : Soup) (base_url : PyStr) : Option PyStr :=
  let a1 := extract_meta_tag soup ("og:audio:url".toList)
  if pyTruthy a1 then Option.map (urljoin base_url) a1 else
  let a2 := extract_meta_tag soup ("og:audio".toList)
  if pyTruthy a2 then Option.map (urljoin base_url) a2 else
  none

/-- `extract_duration` from unfurl.py. -/
def extract_duration (soup : Soup) : Option PyStr :=
  let d1 := extract_meta_tag soup ("og:video:duration".toList)
  if pyTruthy d1 then d1 else
  let d2 := extract_meta_tag soup ("video:duration".toList)
  if pyTruthy d2 then d2 else
  none

/-- `extract_twitter_handle` from unfurl.py. -/
def extract_twitter_handle (soup : Soup) : Option PyStr :=
  let h1 := extract_meta_tag soup ("twitter:creator".toList)
  if pyTruthy h1 then h1 else
  let h2 := extract_meta_tag soup ("twitter:site".toList)
  if pyTruthy h2 then h2 else
  none

/-- `extract_twitter_card` from unfurl.py. -/
def extract_twitter_card (soup : Soup) : Option PyStr :=
  extract_meta_tag soup ("twitter:card".toList)

/-- `extract_canonical_url` from unfurl.py: the `rel=canonical` link's
href returned verbatim (no stripping, no resolution), else the og:url
lookup guarded by truthiness. -/
def extract_canonical_url (soup : Soup) : Option PyStr :=
  let fallback : Option PyStr :=
    let c := extract_meta_tag soup ("og:url".toList)
    if pyTruthy c then c else none
  match soup.find? (relQueryMatches ("canonical".toList)) with
  | some l =>
    match hrefOf l with
    | some h => if h = [] then fallback else some h
    | none => fallback
  | none => fallback

/-- One iteration of the favicon rel loop in `extract_favicon`. -/
def faviconFromRel (soup : Soup) (base_url : PyStr) (relq : PyStr) : Option PyStr :=
  match soup.find? (relQueryMatches relq) with
  | some l =>
    match hrefOf l with
    | some h => if h = [] then none else some (urljoin base_url h)
    | none => none
  | none => none

/-- `extract_favicon` from unfurl.py: try rel queries `icon`,
`shortcut icon`, `apple-touch-icon` in order, then the catch-all filter
for a rel list containing the token `icon`; each hit is resolved against
the base URL. -/
def extract_favicon (soup : Soup) (base_url : PyStr) : Option PyStr :=
  match faviconFromRel soup base_url ("icon".toList) with
  | some v => some v
  | none =>
  match faviconFromRel soup base_url ("shortcut icon".toList) with
  | some v => some v
  | none =>
  match faviconFromRel soup base_url ("apple-touch-icon".toList) with
  | some v => some v
  | none =>
  match soup.find? relTokenIcon with
  | some l =>
    match hrefOf l with
    | some h => if h = [] then none else some (urljoin base_url h)
    | none => none
  | none => none

/-- `extract_theme_color` from unfurl.py. -/
def extract_theme_color (soup : Soup) : Option PyStr :=
  extract_meta_tag soup ("theme-color".toList)

/-- `extract_keywords` from unfurl.py: split the truthy keywords lookup
on commas, strip each piece, drop empty pieces, and return `none` when
nothing remains. -/
def extract_keywords (soup : Soup) : Option (List PyStr) :=
  match extract_meta_tag soup ("keywords".toList) with
  | some ks =>
    if ks = [] then none
    else
      let pieces := (pySplitOn ',' ks).map pyStrip
      let pieces := pieces.filter (fun k => !k.isEmpty)
      if pieces.isEmpty then none else some pieces
  | none => none

/-- `UnfurlData` from models.py: the metadata record, every field
optional except the echoed url. -/
structure UnfurlData where
  url : PyStr
  title : Option PyStr
  description : Option PyStr
  image : Option PyStr
  site_name : Option PyStr
  type : Option PyStr
  locale : Option PyStr
  author : Option PyStr
  publisher : Option PyStr
  published_time : Option PyStr
  modified_time : Option PyStr
  video_url : Option PyStr
  audio_url : Option PyStr
  duration : Option PyStr
  twitter_handle : Option PyStr
  twitter_card : Option PyStr
  canonical_url : Option PyStr
  favicon : Option PyStr
  theme_color : Option PyStr
  keywords : Option (List PyStr)

deriving instance DecidableEq for UnfurlData

/-- `parse_html` from unfurl.py: apply every extractor to the parsed
document and assemble the record, with `url` echoed verbatim. -/
def parse_html (soup : Soup) (url : PyStr) : UnfurlData :=
  { url := url
    title := extract_title soup
    description := extract_description soup
    image := extract_image soup url
    site_name := extract_site_name soup
    type := extract_type soup
    locale := extract_locale soup
    author := extract_author soup
    publisher := extract_publisher soup
    published_time := extract_published_time soup
    modified_time := extract_modified_time soup
    video_url := extract_video_url soup url
    audio_url := extract_audio_url soup url
    duration := extract_duration soup
    twitter_handle := extract_twitter_handle soup
    twitter_card := extract_twitter_card soup
    canonical_url := extract_canonical_url soup
    favicon := extract_favicon soup url
    theme_color := extract_theme_color soup
    keywords := extract_keywords soup }

/-- The record produced for input yielding no tags at all: `url` set,
every other field absent. -/
def sparseRecord (url : PyStr) : UnfurlData :=
  { url := url
    title := none
    description := none
    image := none
    site_name := none
    type := none
    locale := none
    author := none
    publisher := none
    published_time := none
    modified_time := none
    video_url := none
    audio_url := none
    duration := none
    twitter_handle := none
    twitter_card := none
    canonical_url := none
    favicon := none
    theme_color := none
    keywords := none }

/-- `MAX_CONTENT_LENGTH` from unfurl.py: the 5 MiB cap. -/
def MAX_CONTENT_LENGTH : Nat := 5 * 1024 * 1024

/-- The classified failures `fetch_url` can raise, as main.py
distinguishes them: `raise_for_status` (non-2xx), the Content-Length
ValueError, and the content-type ValueError. -/
inductive FetchErr where
  | httpStatus (code : Nat)
  | tooLarge (declared : Nat)
  | notHtml (contentType : PyStr)

deriving instance DecidableEq for FetchErr

/-- The final HTTP response seen by `fetch_url` after redirects: status
code, the declared Content-Length header when present (modelled
numerically), the Content-Type header (empty string when absent, as
`headers.get("content-type", "")` yields), and the body, represented by
its parse result since the HTML parser is an external library. -/
structure Response where
  status : Nat
  contentLength : Option Nat
  contentType : PyStr
  body : Soup

/-- The content-type guard at the end of `fetch_url`: the header must
contain `text/html` or `application/xhtml`. -/
def fetchTypeCheck (r : Response) : Except FetchErr Soup :=
  if strContains r.contentType ("text/html".toList) || strContains r.contentType ("application/xhtml".toList)
  then Except.ok r.body
  else Except.error (FetchErr.notHtml r.contentType)

/-- `fetch_url` from unfurl.py, as a function of the final response: the
checks run in source order — `raise_for_status` (any status outside 2xx
raises), then the declared Content-Length against the cap, then the
content-type guard — and only then is the body returned. -/
def fetch_url (r : Response) : Except FetchErr Soup :=
  if r.status < 200 || 300 ≤ r.status then Except.error (FetchErr.httpStatus r.status)
  else
    match r.contentLength with
    | some n =>
      if MAX_CONTENT_LENGTH < n then Except.error (FetchErr.tooLarge n) else fetchTypeCheck r
    | none => fetchTypeCheck r

/-- `UnfurlResponse` from models.py. -/
structure UnfurlResponse where
  success : Bool
  data : Option UnfurlData
  error : Option PyStr

/-- What the network attempt for a request can come to, matching the
except arms of the `/unfurl` handler in main.py: a final response (whose
classified checks `fetch_url` then applies), a timeout, a lower-level
request error carrying the exception's type name, or any other
unexpected exception. -/
inductive NetResult where
  | resp (r : Response)
  | timeout
  | netError (typeName : PyStr)
  | unexpected

/-- The `/unfurl` handler from main.py: on success wrap the parsed data;
each exception class is mapped to `success=False` and the corresponding
message text. -/
def unfurl (url : PyStr) (n : NetResult) : UnfurlResponse :=
  match n with
  | NetResult.timeout =>
    { success := false, data := none,
      error := some ("Request timed out while fetching ".toList ++ url) }
  | NetResult.netError t =>
    { success := false, data := none,
      error := some ("Failed to connect to ".toList ++ url ++ ": ".toList ++ t) }
  | NetResult.unexpected =>
    { success := false, data := none,
      error := some ("An unexpected error occurred while processing the URL".toList) }
  | NetResult.resp r =>
    match fetch_url r with
    | Except.ok soup =>
      { success := true, data := some (parse_html soup url), error := none }
    | Except.error (FetchErr.httpStatus c) =>
      { success := false, data := none,
        error := some ("HTTP error ".toList ++ natToStr c ++ " while fetching ".toList ++ url) }
    | Except.error (FetchErr.tooLarge d) =>
      { success := false, data := none,
        error := some ("Content too large: ".toList ++ natToStr d ++ " bytes".toList) }
    | Except.error (FetchErr.notHtml t) =>
      { success := false, data := none,
        error := some ("Not HTML content: ".toList ++ t) }

/-- Formalisation of the spec's keywords rule, in the spec's own words:
the raw meta content split on commas, each piece trimmed, empty pieces
dropped, with an empty resulting sequence meaning an absent field. -/
def keywordsSpec (s : PyStr) : Option (List PyStr) :=
  let pieces := ((pySplitOn ',' s).map pyStrip).filter (fun k => !k.isEmpty)
  if pieces.isEmpty then none else some pieces

/-- Checker for the invariant that an optional string field is either
absent or non-empty. -/
def nonEmptyOptStr : Option PyStr → Bool
  | some s => !s.isEmpty
  | none => true

/-- Checker for the invariant that the keywords field is either absent or
a non-empty list of non-empty strings. -/
def nonEmptyKeywords : Option (List PyStr) → Bool
  | some l => !l.isEmpty && l.all (fun k => !k.isEmpty)
  | none => true

/-- Checker for the response-shape invariant of the `/unfurl` boundary:
success carries data and no error; failure carries a non-empty error
message and no data. -/
def responseInvariant (r : UnfurlResponse) : Bool :=
  if r.success then r.data.isSome && r.error.isNone
  else r.data.isNone && (match r.error with | some m => !m.isEmpty | none => false)

theorem pySplitOn_ne_nil (sep : Char) (s : PyStr) : pySplitOn sep s ≠ [] := by
  cases s with
  | nil => simp [pySplitOn]
  | cons c rest =>
    simp only [pySplitOn]
    split
    · simp
    · split <;> simp

theorem pySplitOn_cons_sep (sep c : Char) (rest : PyStr) (h : c = sep) :
    pySplitOn sep (c :: rest) = [] :: pySplitOn sep rest := by
  simp [pySplitOn, h]

theorem pySplitOn_cons_ne (sep c : Char) (rest : PyStr) (h : ¬ c = sep)
    (p : PyStr) (ps : List PyStr) (hps : pySplitOn sep rest = p :: ps) :
    pySplitOn sep (c :: rest) = (c :: p) :: ps := by
  simp [pySplitOn, h, hps]

theorem combineSplits_single (a b : PyStr) (bs : List PyStr) :
    combineSplits [a] (b :: bs) = (a ++ b) :: bs := rfl

theorem combineSplits_cons (a a2 : PyStr) (as bs : List PyStr) :
    combineSplits (a :: a2 :: as) bs = a :: combineSplits (a2 :: as) bs := rfl

theorem pySplitOn_append (sep : Char) (s t : PyStr) :
    pySplitOn sep (s ++ t) = combineSplits (pySplitOn sep s) (pySplitOn sep t) := by
  induction s with
  | nil =>
    obtain ⟨b, bs, hb⟩ := List.exists_cons_of_ne_nil (pySplitOn_ne_nil sep t)
    simp [pySplitOn, hb, combineSplits_single]
  | cons c s ih =>
    obtain ⟨p, ps, hp⟩ := List.exists_cons_of_ne_nil (pySplitOn_ne_nil sep s)
    by_cases hc : c = sep
    · rw [List.cons_append, pySplitOn_cons_sep sep c (s ++ t) hc, ih,
        pySplitOn_cons_sep sep c s hc, hp, combineSplits_cons]
    · rw [List.cons_append]
      cases ps with
      | nil =>
        obtain ⟨b, bs, hb⟩ := List.exists_cons_of_ne_nil (pySplitOn_ne_nil sep t)
        have hst : pySplitOn sep (s ++ t) = (p ++ b) :: bs := by
          rw [ih, hp, hb, combineSplits_single]
        rw [pySplitOn_cons_ne sep c (s ++ t) hc (p ++ b) bs hst,
          pySplitOn_cons_ne sep c s hc p [] hp, hb, combineSplits_single,
          List.cons_append]
      | cons q qs =>
        obtain ⟨m, ms, hm⟩ := List.exists_cons_of_ne_nil
          (show combineSplits (q :: qs) (pySplitOn sep t) ≠ [] from by
            cases qs with
            | nil =>
              obtain ⟨b, bs, hb⟩ := List.exists_cons_of_ne_nil (pySplitOn_ne_nil sep t)
              rw [hb, combineSplits_single]
              simp
            | cons q2 qs2 => rw [combineSplits_cons]; simp)
        have hst : pySplitOn sep (s ++ t) = p :: m :: ms := by
          rw [ih, hp, combineSplits_cons, hm]
        rw [pySplitOn_cons_ne sep c (s ++ t) hc p (m :: ms) hst,
          pySplitOn_cons_ne sep c s hc p (q :: qs) hp, combineSplits_cons, hm]

theorem pySplitOn_no_sep (sep : Char) (t : PyStr) (h : ∀ c ∈ t, ¬ c = sep) :
    pySplitOn sep t = [t] := by
  induction t with
  | nil => rfl
  | cons c rest ih =>
    have hc : ¬ c = sep := h c (by simp)
    have hr := ih (fun x hx => h x (by simp [hx]))
    simp [pySplitOn, hc, hr]

theorem dropWhile_append_all {p : Char → Bool} {u : PyStr} (hall : ∀ a ∈ u, p a = true)
    (v : PyStr) : (u ++ v).dropWhile p = v.dropWhile p := by
  induction u with
  | nil => rfl
  | cons a u ih =>
    rw [List.cons_append, List.dropWhile_cons_of_pos (hall a (by simp))]
    exact ih (fun x hx => hall x (by simp [hx]))

theorem takeWhile_append_all {p : Char → Bool} {u : PyStr} (hall : ∀ a ∈ u, p a = true)
    (v : PyStr) : (u ++ v).takeWhile p = u ++ v.takeWhile p := by
  induction u with
  | nil => rfl
  | cons a u ih =>
    rw [List.cons_append, List.takeWhile_cons_of_pos (hall a (by simp)), List.cons_append,
      ih (fun x hx => hall x (by simp [hx]))]

theorem dropWhile_append_cons {p : Char → Bool} {u : PyStr} {r : Char} {rs : PyStr}
    (h : u.dropWhile p = r :: rs) (v : PyStr) :
    (u ++ v).dropWhile p = r :: (rs ++ v) := by
  induction u with
  | nil => simp at h
  | cons a u ih =>
    by_cases hp : p a = true
    · rw [List.dropWhile_cons_of_pos hp] at h
      rw [List.cons_append, List.dropWhile_cons_of_pos hp]
      exact ih h
    · rw [List.dropWhile_cons_of_neg hp] at h
      cases h
      rw [List.cons_append, List.dropWhile_cons_of_neg hp]

theorem rstrip_append_space {t : PyStr} (h : ∀ c ∈ t, isPySpace c = true) (s : PyStr) :
    rstrip (s ++ t) = rstrip s := by
  unfold rstrip
  rw [List.reverse_append, dropWhile_append_all (fun a ha => h a (List.mem_reverse.mp ha))]

theorem pyStrip_append_space {t : PyStr} (h : ∀ c ∈ t, isPySpace c = true) (s : PyStr) :
    pyStrip (s ++ t) = pyStrip s := by
  unfold pyStrip
  rw [rstrip_append_space h]

theorem pyStrip_cons_space {c : Char} (hc : isPySpace c = true) (s : PyStr) :
    pyStrip (c :: s) = pyStrip s := by
  unfold pyStrip rstrip
  rw [List.reverse_cons]
  cases hdw : s.reverse.dropWhile isPySpace with
  | nil =>
    rw [dropWhile_append_all (List.dropWhile_eq_nil_iff.mp hdw),
      show List.dropWhile isPySpace [c] = [] from by simp [List.dropWhile, hc]]
  | cons r rs =>
    rw [dropWhile_append_cons hdw, ← List.cons_append, List.reverse_append,
      List.reverse_cons]
    show lstrip ([c].reverse ++ (r :: rs).reverse) = lstrip (r :: rs).reverse
    rw [show ([c] : PyStr).reverse = [c] from rfl, List.cons_append, List.nil_append]
    exact List.dropWhile_cons_of_pos hc

theorem rstrip_decomp (s : PyStr) :
    s = rstrip s ++ (s.reverse.takeWhile isPySpace).reverse := by
  unfold rstrip
  conv_lhs => rw [← s.reverse_reverse, ← List.takeWhile_append_dropWhile isPySpace s.reverse]
  rw [List.reverse_append]

theorem stripMap_split_lstrip {sep : Char} (hsep : isPySpace sep = false) (s : PyStr) :
    (pySplitOn sep (lstrip s)).map pyStrip = (pySplitOn sep s).map pyStrip := by
  induction s with
  | nil => rfl
  | cons c s ih =>
    by_cases hc : isPySpace c = true
    · have hcs : ¬ c = sep := by
        intro h
        rw [h, hsep] at hc
        exact absurd hc (by simp)
      rw [show lstrip (c :: s) = lstrip s from List.dropWhile_cons_of_pos hc, ih]
      obtain ⟨p, ps, hp⟩ := List.exists_cons_of_ne_nil (pySplitOn_ne_nil sep s)
      rw [pySplitOn_cons_ne sep c s hcs p ps hp, hp, List.map_cons, List.map_cons,
        pyStrip_cons_space hc]
    · rw [show lstrip (c :: s) = c :: s from List.dropWhile_cons_of_neg hc]

theorem stripMap_combine_space {t : PyStr} (ht : ∀ c ∈ t, isPySpace c = true) :
    ∀ as : List PyStr, as ≠ [] →
      (combineSplits as [t]).map pyStrip = as.map pyStrip := by
  intro as
  induction as with
  | nil => intro h; exact absurd rfl h
  | cons a as ih =>
    intro _
    cases as with
    | nil =>
      rw [combineSplits_single, List.map_cons, List.map_cons, pyStrip_append_space ht]
    | cons b bs =>
      rw [combineSplits_cons, List.map_cons, List.map_cons, ih (by simp)]

theorem stripMap_split_strip {sep : Char} (hsep : isPySpace sep = false) (s : PyStr) :
    (pySplitOn sep (pyStrip s)).map pyStrip = (pySplitOn sep s).map pyStrip := by
  have ht : ∀ c ∈ (s.reverse.takeWhile isPySpace).reverse, isPySpace c = true :=
    fun c hc => List.mem_takeWhile_imp (List.mem_reverse.mp hc)
  have hns : pySplitOn sep ((s.reverse.takeWhile isPySpace).reverse) =
      [(s.reverse.takeWhile isPySpace).reverse] :=
    pySplitOn_no_sep sep _ (fun c hc he => by
      rw [he] at hc
      have h2 := ht sep hc
      rw [hsep] at h2
      exact absurd h2 (by simp))
  have hstep : (pySplitOn sep s).map pyStrip = (pySplitOn sep (rstrip s)).map pyStrip := by
    conv_lhs => rw [rstrip_decomp s]
    rw [pySplitOn_append, hns,
      stripMap_combine_space ht _ (pySplitOn_ne_nil sep (rstrip s))]
  rw [show pyStrip s = lstrip (rstrip s) from rfl,
    stripMap_split_lstrip hsep (rstrip s), ← hstep]

theorem pyStrip_eq_nil_all_space {s : PyStr} (h : pyStrip s = []) :
    ∀ c ∈ s, isPySpace c = true := by
  intro c hc
  have h1 : ∀ x ∈ rstrip s, isPySpace x = true := List.dropWhile_eq_nil_iff.mp h
  rw [rstrip_decomp s] at hc
  rcases List.mem_append.mp hc with h2 | h2
  · exact h1 c h2
  · exact List.mem_takeWhile_imp (List.mem_reverse.mp h2)

theorem schemeSplit_inv {s sch rest : PyStr} (h : schemeSplit s = some (sch, rest)) :
    ∃ c pre, sch = c :: pre ∧ c.isAlpha = true ∧ ∀ x ∈ pre, isSchemeChar x = true := by
  cases s with
  | nil => simp [schemeSplit] at h
  | cons c r0 =>
    simp only [schemeSplit] at h
    split at h
    next ha =>
      split at h
      next rest2 heq =>
        simp only [Option.some.injEq, Prod.mk.injEq] at h
        exact ⟨c, r0.takeWhile isSchemeChar, h.1.symm, ha,
          fun x hx => List.mem_takeWhile_imp hx⟩
      next => exact absurd h (by simp)
    next => exact absurd h (by simp)

theorem schemeSplit_roundtrip {c : Char} {pre : PyStr} (ha : c.isAlpha = true)
    (hpre : ∀ x ∈ pre, isSchemeChar x = true) (x : PyStr) :
    schemeSplit ((c :: pre) ++ ':' :: x) = some (c :: pre, x) := by
  have hcolon : isSchemeChar ':' = false := by decide
  rw [List.cons_append]
  simp only [schemeSplit]
  rw [if_pos ha, dropWhile_append_all hpre, List.dropWhile_cons_of_neg (by simp [hcolon]),
    takeWhile_append_all hpre, List.takeWhile_cons_of_neg (by simp [hcolon]),
    List.append_nil]
  rfl

theorem urljoin_absolute {base : PyStr} (hb : isAbsoluteUrl base = true) (rel : PyStr) :
    isAbsoluteUrl (urljoin base rel) = true := by
  unfold urljoin
  by_cases h0 : rel = []
  · rw [if_pos h0]; exact hb
  rw [if_neg h0]
  by_cases h1 : (schemeSplit rel).isSome = true
  · rw [if_pos h1]; exact h1
  rw [if_neg h1]
  split
  next heq =>
    unfold isAbsoluteUrl at hb
    rw [heq] at hb
    exact absurd hb (by simp)
  next sch rest heq =>
    obtain ⟨c, pre, hsch, ha, hpre⟩ := schemeSplit_inv heq
    subst hsch
    split
    · unfold isAbsoluteUrl
      rw [schemeSplit_roundtrip ha hpre]
      rfl
    split
    · unfold isAbsoluteUrl
      rw [schemeSplit_roundtrip ha hpre]
      rfl
    · unfold isAbsoluteUrl
      rw [schemeSplit_roundtrip ha hpre]
      rfl

theorem urljoin_ne_nil {rel : PyStr} (h : rel ≠ []) (base : PyStr) :
    urljoin base rel ≠ [] := by
  unfold urljoin
  rw [if_neg h]
  by_cases h1 : (schemeSplit rel).isSome = true
  · rw [if_pos h1]; exact h
  rw [if_neg h1]
  split
  next => exact h
  next sch rest heq =>
    split
    · simp
    split
    · simp
    · simp

theorem pyTruthy_some {x : Option PyStr} (h : pyTruthy x = true) :
    ∃ s, x = some s ∧ s ≠ [] := by
  cases x with
  | none => exact absurd h (by simp [pyTruthy])
  | some s => exact ⟨s, rfl, by simpa [pyTruthy, List.isEmpty_iff] using h⟩

theorem pyTruthy_some_iff {s : PyStr} : pyTruthy (some s) = true ↔ s ≠ [] := by
  simp [pyTruthy, List.isEmpty_iff]

theorem nonEmpty_of_ite_truthy {d rest : Option PyStr} (h : nonEmptyOptStr rest = true) :
    nonEmptyOptStr (if pyTruthy d then d else rest) = true := by
  by_cases hd : pyTruthy d = true
  · rw [if_pos hd]
    obtain ⟨s, rfl, hs⟩ := pyTruthy_some hd
    simpa [nonEmptyOptStr, List.isEmpty_iff] using hs
  · rw [if_neg hd]
    exact h

theorem nonEmpty_of_ite_map {base : PyStr} {d rest : Option PyStr}
    (h : nonEmptyOptStr rest = true) :
    nonEmptyOptStr (if pyTruthy d then Option.map (urljoin base) d else rest) = true := by
  by_cases hd : pyTruthy d = true
  · rw [if_pos hd]
    obtain ⟨s, rfl, hs⟩ := pyTruthy_some hd
    simpa [nonEmptyOptStr, List.isEmpty_iff, Option.map_some'] using urljoin_ne_nil hs base
  · rw [if_neg hd]
    exact h

theorem ite_map_some {b : PyStr} {d rest : Option PyStr} {v : PyStr}
    (h : (if pyTruthy d then Option.map (urljoin b) d else rest) = some v) :
    (∃ r, d = some r ∧ r ≠ [] ∧ v = urljoin b r) ∨ rest = some v := by
  by_cases hd : pyTruthy d = true
  · left
    obtain ⟨s, rfl, hs⟩ := pyTruthy_some hd
    rw [if_pos hd] at h
    simp only [Option.map_some', Option.some.injEq] at h
    exact ⟨s, rfl, hs, h.symm⟩
  · right
    rw [if_neg hd] at h
    exact h

theorem faviconFromRel_some {soup : Soup} {b q v : PyStr}
    (h : faviconFromRel soup b q = some v) :
    ∃ l h0, soup.find? (relQueryMatches q) = some l ∧ hrefOf l = some h0 ∧
      h0 ≠ [] ∧ v = urljoin b h0 := by
  unfold faviconFromRel at h
  split at h
  next l hf =>
    split at h
    next h0 hh =>
      by_cases h1 : h0 = []
      · rw [if_pos h1] at h
        exact absurd h (by simp)
      · rw [if_neg h1] at h
        simp only [Option.some.injEq] at h
        exact ⟨l, h0, hf, hh, h1, h.symm⟩
    next hh => exact absurd h (by simp)
  next hf => exact absurd h (by simp)

theorem extract_meta_tag_prop_hit {soup : Soup} {key : PyStr} {tg : Tag} {c : PyStr}
    (h1 : findMetaByProp soup key = some tg) (h2 : contentOf tg = some c) (h3 : ¬ c = []) :
    extract_meta_tag soup key = some (pyStrip c) := by
  simp only [extract_meta_tag, h1, h2, if_neg h3]

theorem extract_meta_tag_absent {soup : Soup} {key : PyStr}
    (h1 : findMetaByProp soup key = none) (h2 : findMetaByName soup key = none) :
    extract_meta_tag soup key = none := by
  simp only [extract_meta_tag, metaNameProbe, h1, h2]

theorem metaNameProbe_hit {soup : Soup} {key : PyStr} {tg : Tag} {c : PyStr}
    (h1 : findMetaByName soup key = some tg) (h2 : contentOf tg = some c) (h3 : ¬ c = []) :
    metaNameProbe soup key = some (pyStrip c) := by
  simp only [metaNameProbe, h1, h2, if_neg h3]

theorem metaNameProbe_some_cases {soup : Soup} {key : PyStr} {t : PyStr}
    (h : metaNameProbe soup key = some t) :
    ∃ tg c, findMetaByName soup key = some tg ∧ contentOf tg = some c ∧
      ¬ c = [] ∧ t = pyStrip c := by
  unfold metaNameProbe at h
  split at h
  next tg hf =>
    split at h
    next c hc =>
      by_cases h1 : c = []
      · rw [if_pos h1] at h
        exact absurd h (by simp)
      · rw [if_neg h1] at h
        simp only [Option.some.injEq] at h
        exact ⟨tg, c, hf, hc, h1, h.symm⟩
    next => exact absurd h (by simp)
  next => exact absurd h (by simp)

theorem extract_meta_tag_name_hit {soup : Soup} {key : PyStr} {tg : Tag} {c : PyStr}
    (hp : findMetaByProp soup key = none ∨
      ∃ tg0, findMetaByProp soup key = some tg0 ∧
        (contentOf tg0 = none ∨ contentOf tg0 = some []))
    (h1 : findMetaByName soup key = some tg) (h2 : contentOf tg = some c) (h3 : ¬ c = []) :
    extract_meta_tag soup key = some (pyStrip c) := by
  have hn := metaNameProbe_hit h1 h2 h3
  rcases hp with hp | ⟨tg0, hp, hc0⟩
  · simp only [extract_meta_tag, hp, hn]
  · rcases hc0 with hc0 | hc0
    · simp only [extract_meta_tag, hp, hc0, hn]
    · simp only [extract_meta_tag, hp, hc0, hn]
      simp

theorem extract_meta_tag_some_cases {soup : Soup} {key : PyStr} {t : PyStr}
    (h : extract_meta_tag soup key = some t) :
    ∃ tg c, (findMetaByProp soup key = some tg ∨ findMetaByName soup key = some tg) ∧
      contentOf tg = some c ∧ ¬ c = [] ∧ t = pyStrip c := by
  unfold extract_meta_tag at h
  split at h
  next tg hf =>
    split at h
    next c hc =>
      by_cases h1 : c = []
      · rw [if_pos h1] at h
        obtain ⟨tg2, c2, hf2, hc2, h2, ht⟩ := metaNameProbe_some_cases h
        exact ⟨tg2, c2, Or.inr hf2, hc2, h2, ht⟩
      · rw [if_neg h1] at h
        simp only [Option.some.injEq] at h
        exact ⟨tg, c, Or.inl hf, hc, h1, h.symm⟩
    next hc =>
      obtain ⟨tg2, c2, hf2, hc2, h2, ht⟩ := metaNameProbe_some_cases h
      exact ⟨tg2, c2, Or.inr hf2, hc2, h2, ht⟩
  next hf =>
    obtain ⟨tg2, c2, hf2, hc2, h2, ht⟩ := metaNameProbe_some_cases h
    exact ⟨tg2, c2, Or.inr hf2, hc2, h2, ht⟩

theorem faviconFromRel_nonEmpty {soup : Soup} {b q v : PyStr}
    (h : faviconFromRel soup b q = some v) : v ≠ [] := by
  obtain ⟨_, _, _, _, hne, hv⟩ := faviconFromRel_some h
  subst hv
  exact urljoin_ne_nil hne b

theorem extract_title_nonEmpty_of_meta (soup : Soup) :
    nonEmptyOptStr (extract_title soup) = true ∨
      ∃ tt s, soup.find? isTitleTag = some tt ∧ titleTextOf tt = some s ∧
        extract_title soup = some (pyStrip s) := by
  unfold extract_title
  by_cases h1 : pyTruthy (extract_meta_tag soup ("og:title".toList)) = true
  · left
    rw [if_pos h1]
    obtain ⟨s, hs, hne⟩ := pyTruthy_some h1
    rw [hs]
    simpa [nonEmptyOptStr, List.isEmpty_iff] using hne
  rw [if_neg h1]
  by_cases h2 : pyTruthy (extract_meta_tag soup ("twitter:title".toList)) = true
  · left
    rw [if_pos h2]
    obtain ⟨s, hs, hne⟩ := pyTruthy_some h2
    rw [hs]
    simpa [nonEmptyOptStr, List.isEmpty_iff] using hne
  rw [if_neg h2]
  split
  next tt hf =>
    split
    next s hs =>
      by_cases h3 : s = []
      · left; rw [if_pos h3]; rfl
      · right; exact ⟨tt, s, hf, hs, by rw [if_neg h3]⟩
    next => left; rfl
  next => left; rfl

theorem extract_description_nonEmpty (soup : Soup) :
    nonEmptyOptStr (extract_description soup) = true := by
  unfold extract_description
  exact nonEmpty_of_ite_truthy (nonEmpty_of_ite_truthy (nonEmpty_of_ite_truthy rfl))

theorem extract_image_nonEmpty (soup : Soup) (b : PyStr) :
    nonEmptyOptStr (extract_image soup b) = true := by
  unfold extract_image
  exact nonEmpty_of_ite_map (nonEmpty_of_ite_map rfl)

theorem extract_author_nonEmpty (soup : Soup) :
    nonEmptyOptStr (extract_author soup) = true := by
  unfold extract_author
  exact nonEmpty_of_ite_truthy (nonEmpty_of_ite_truthy rfl)

theorem extract_publisher_nonEmpty (soup : Soup) :
    nonEmptyOptStr (extract_publisher soup) = true := by
  unfold extract_publisher
  exact nonEmpty_of_ite_truthy (nonEmpty_of_ite_truthy rfl)

theorem extract_published_time_nonEmpty (soup : Soup) :
    nonEmptyOptStr (extract_published_time soup) = true := by
  unfold extract_published_time
  exact nonEmpty_of_ite_truthy (nonEmpty_of_ite_truthy (nonEmpty_of_ite_truthy rfl))

theorem extract_modified_time_nonEmpty (soup : Soup) :
    nonEmptyOptStr (extract_modified_time soup) = true := by
  unfold extract_modified_time
  exact nonEmpty_of_ite_truthy (nonEmpty_of_ite_truthy rfl)

theorem extract_video_url_nonEmpty (soup : Soup) (b : PyStr) :
    nonEmptyOptStr (extract_video_url soup b) = true := by
  unfold extract_video_url
  exact nonEmpty_of_ite_map (nonEmpty_of_ite_map (nonEmpty_of_ite_map rfl))

theorem extract_audio_url_nonEmpty (soup : Soup) (b : PyStr) :
    nonEmptyOptStr (extract_audio_url soup b) = true := by
  unfold extract_audio_url
  exact nonEmpty_of_ite_map (nonEmpty_of_ite_map rfl)

theorem extract_duration_nonEmpty (soup : Soup) :
    nonEmptyOptStr (extract_duration soup) = true := by
  unfold extract_duration
  exact nonEmpty_of_ite_truthy (nonEmpty_of_ite_truthy rfl)

theorem extract_twitter_handle_nonEmpty (soup : Soup) :
    nonEmptyOptStr (extract_twitter_handle soup) = true := by
  unfold extract_twitter_handle
  exact nonEmpty_of_ite_truthy (nonEmpty_of_ite_truthy rfl)

theorem extract_canonical_url_nonEmpty (soup : Soup) :
    nonEmptyOptStr (extract_canonical_url soup) = true := by
  unfold extract_canonical_url
  have hfb : nonEmptyOptStr
      (if pyTruthy (extract_meta_tag soup ("og:url".toList))
        then extract_meta_tag soup ("og:url".toList) else none) = true :=
    nonEmpty_of_ite_truthy rfl
  split
  next l hf =>
    split
    next h0 hh =>
      by_cases h1 : h0 = []
      · rw [if_pos h1]; exact hfb
      · rw [if_neg h1]
        simpa [nonEmptyOptStr, List.isEmpty_iff] using h1
    next => exact hfb
  next => exact hfb

theorem extract_favicon_nonEmpty (soup : Soup) (b : PyStr) :
    nonEmptyOptStr (extract_favicon soup b) = true := by
  unfold extract_favicon
  split
  next v h1 => simpa [nonEmptyOptStr, List.isEmpty_iff] using faviconFromRel_nonEmpty h1
  next =>
  split
  next v h2 => simpa [nonEmptyOptStr, List.isEmpty_iff] using faviconFromRel_nonEmpty h2
  next =>
  split
  next v h3 => simpa [nonEmptyOptStr, List.isEmpty_iff] using faviconFromRel_nonEmpty h3
  next =>
  split
  next l h4 =>
    split
    next h0 hh =>
      by_cases hn : h0 = []
      · rw [if_pos hn]; rfl
      · rw [if_neg hn]
        simpa [nonEmptyOptStr, List.isEmpty_iff] using urljoin_ne_nil hn b
    next => rfl
  next => rfl

theorem extract_keywords_nonEmpty (soup : Soup) :
    nonEmptyKeywords (extract_keywords soup) = true := by
  unfold extract_keywords
  split
  next ks hk =>
    by_cases h1 : ks = []
    · rw [if_pos h1]; rfl
    rw [if_neg h1]
    by_cases h2 : (((pySplitOn ',' ks).map pyStrip).filter (fun k => !k.isEmpty)).isEmpty = true
    · rw [if_pos h2]; rfl
    · rw [if_neg h2]
      simp only [nonEmptyKeywords, Bool.and_eq_true, Bool.not_eq_true']
      refine ⟨by simpa using h2, ?_⟩
      rw [List.all_eq_true]
      intro k hk2
      exact (List.mem_filter.mp hk2).2
  next => rfl

theorem parse_html_nil (url : PyStr) : parse_html [] url = sparseRecord url := rfl

/-- Claim C6: for every fetched response whose final HTTP status code
lies outside the 2xx range, the fetch fails with the HttpStatus
classification carrying that code, and does not proceed to return the
body as HTML. -/
theorem c6_non2xx_httpStatus (r : Response)
    (h : r.status < 200 ∨ 300 ≤ r.status) :
    fetch_url r = Except.error (FetchErr.httpStatus r.status) := by
  unfold fetch_url
  rcases h with h | h
  · rw [if_pos (by simp [h])]
  · rw [if_pos (by simp [h])]

/-- Witness for C6: a concrete 404 response is classified HttpStatus 404. -/
theorem c6_witness :
    (404 < 200 ∨ 300 ≤ 404) ∧
      fetch_url ⟨404, none, ("text/html".toList), []⟩ =
        Except.error (FetchErr.httpStatus 404) :=
  ⟨Or.inr (by decide),
    c6_non2xx_httpStatus ⟨404, none, ("text/html".toList), []⟩ (Or.inr (by decide))⟩

/-- Claim C3 counterexample: a 404 response declaring a 6291456-byte
Content-Length fails with the HttpStatus classification, not TooLarge,
because the status check runs first. -/
theorem c3_counterexample :
    fetch_url ⟨404, some 6291456, ("text/html".toList), []⟩ =
        Except.error (FetchErr.httpStatus 404) ∧
      ¬ fetch_url ⟨404, some 6291456, ("text/html".toList), []⟩ =
        Except.error (FetchErr.tooLarge 6291456) := by
  have h : fetch_url ⟨404, some 6291456, ("text/html".toList), []⟩ =
      Except.error (FetchErr.httpStatus 404) := rfl
  refine ⟨h, ?_⟩
  rw [h]
  intro hc
  injection hc with h2
  exact FetchErr.noConfusion h2

/-- Claim C3 (amended): for every response whose final status is in the
2xx range and whose declared Content-Length exceeds the 5 MiB cap, the
fetch fails with TooLarge carrying the declared size, before the
content-type check is consulted. -/
theorem c3_toolarge_on_2xx (r : Response) (n : Nat)
    (h1 : 200 ≤ r.status) (h2 : r.status < 300)
    (h3 : r.contentLength = some n) (h4 : MAX_CONTENT_LENGTH < n) :
    fetch_url r = Except.error (FetchErr.tooLarge n) := by
  unfold fetch_url
  rw [if_neg (by simp; omega)]
  simp only [h3]
  rw [if_pos h4]

/-- Witness for C3's amended theorem at a concrete 200 response declaring
6291456 bytes. -/
theorem c3_witness :
    (200 ≤ 200 ∧ 200 < 300 ∧ MAX_CONTENT_LENGTH < 6291456) ∧
      fetch_url ⟨200, some 6291456, ("text/html".toList), []⟩ =
        Except.error (FetchErr.tooLarge 6291456) :=
  ⟨⟨by decide, by decide, by decide⟩,
    c3_toolarge_on_2xx ⟨200, some 6291456, ("text/html".toList), []⟩ 6291456
      (by decide) (by decide) rfl (by decide)⟩

/-- Claim C7: for a 2xx response within the size cap, a Content-Type
containing neither `text/html` nor `application/xhtml` fails the fetch
with NotHtml carrying that content type, and one containing either
substring passes the check and yields the body. -/
theorem c7_content_type (r : Response)
    (h1 : 200 ≤ r.status) (h2 : r.status < 300)
    (h3 : ∀ n, r.contentLength = some n → n ≤ MAX_CONTENT_LENGTH) :
    (strContains r.contentType ("text/html".toList) = false →
      strContains r.contentType ("application/xhtml".toList) = false →
      fetch_url r = Except.error (FetchErr.notHtml r.contentType)) ∧
    ((strContains r.contentType ("text/html".toList) = true ∨
      strContains r.contentType ("application/xhtml".toList) = true) →
      fetch_url r = Except.ok r.body) := by
  have hmain : fetch_url r = fetchTypeCheck r := by
    unfold fetch_url
    rw [if_neg (by simp; omega)]
    cases hcl : r.contentLength with
    | none => rfl
    | some n =>
      simp only
      rw [if_neg (Nat.not_lt.mpr (h3 n hcl))]
  constructor
  · intro ha hb
    rw [hmain]
    unfold fetchTypeCheck
    rw [if_neg (by simp only [ha, hb]; simp)]
  · intro hor
    rw [hmain]
    unfold fetchTypeCheck
    rw [if_pos (by rcases hor with h | h <;> simp only [h] <;> simp)]

/-- Witness for C7: an application/json response is rejected as NotHtml,
and a text/html response passes. -/
theorem c7_witness :
    fetch_url ⟨200, none, ("application/json".toList), []⟩ =
        Except.error (FetchErr.notHtml ("application/json".toList)) ∧
      fetch_url ⟨200, none, ("text/html; charset=utf-8".toList), [Tag.other]⟩ =
        Except.ok [Tag.other] := by
  constructor
  · exact (c7_content_type ⟨200, none, ("application/json".toList), []⟩
      (by decide) (by decide) (by simp)).1 (by decide) (by decide)
  · exact (c7_content_type ⟨200, none, ("text/html; charset=utf-8".toList), [Tag.other]⟩
      (by decide) (by decide) (by simp)).2 (Or.inl (by decide))

/-- Claim C8: extraction is total and never errors: for every parsed
document the record's url field is the input page URL verbatim, and a
document in which no tags were found at all yields the record with url
set and every other field absent. -/
theorem c8_extract_total (soup : Soup) (url : PyStr) :
    (parse_html soup url).url = url ∧ parse_html [] url = sparseRecord url :=
  ⟨rfl, parse_html_nil url⟩

/-- Claim C9: every response produced by the unfurl boundary satisfies
the shape invariant: success carries data and no error, failure carries a
non-empty error message and no data; the handler is a total function of
the classified network outcome, so no exception propagates. -/
theorem c9_boundary_invariant (url : PyStr) (n : NetResult) :
    responseInvariant (unfurl url n) = true := by
  cases n with
  | timeout => simp [unfurl, responseInvariant]
  | netError t => simp [unfurl, responseInvariant]
  | unexpected => simp [unfurl, responseInvariant]
  | resp r =>
    cases hf : fetch_url r with
    | ok soup => simp [unfurl, hf, responseInvariant]
    | error e => cases e <;> simp [unfurl, hf, responseInvariant]

/-- Claim C2 counterexample: whitespace-only sources do produce
empty-string fields: a whitespace-only og:site_name content and a
whitespace-only `<title>` text both yield `some ""`. -/
theorem c2_counterexample :
    (parse_html [Tag.meta (some ("og:site_name".toList)) none (some (" ".toList)),
        Tag.title (some (" ".toList))] ("https://example.com/a".toList)).site_name
      = some [] ∧
    (parse_html [Tag.meta (some ("og:site_name".toList)) none (some (" ".toList)),
        Tag.title (some (" ".toList))] ("https://example.com/a".toList)).title
      = some [] := by
  constructor
  · decide
  · decide

/-- Claim C2 (amended): no field other than title, site_name, type,
locale, twitter_card and theme_color is ever the empty string, and the
keywords field is never an empty list nor contains empty entries; those
six excepted fields are returned without a final non-empty guard, so a
present-but-whitespace-only source can make them the empty string. -/
theorem c2_no_empty_fields (soup : Soup) (url : PyStr) :
    nonEmptyOptStr (parse_html soup url).description = true ∧
    nonEmptyOptStr (parse_html soup url).image = true ∧
    nonEmptyOptStr (parse_html soup url).author = true ∧
    nonEmptyOptStr (parse_html soup url).publisher = true ∧
    nonEmptyOptStr (parse_html soup url).published_time = true ∧
    nonEmptyOptStr (parse_html soup url).modified_time = true ∧
    nonEmptyOptStr (parse_html soup url).video_url = true ∧
    nonEmptyOptStr (parse_html soup url).audio_url = true ∧
    nonEmptyOptStr (parse_html soup url).duration = true ∧
    nonEmptyOptStr (parse_html soup url).twitter_handle = true ∧
    nonEmptyOptStr (parse_html soup url).canonical_url = true ∧
    nonEmptyOptStr (parse_html soup url).favicon = true ∧
    nonEmptyKeywords (parse_html soup url).keywords = true :=
  ⟨extract_description_nonEmpty soup, extract_image_nonEmpty soup url,
    extract_author_nonEmpty soup, extract_publisher_nonEmpty soup,
    extract_published_time_nonEmpty soup, extract_modified_time_nonEmpty soup,
    extract_video_url_nonEmpty soup url, extract_audio_url_nonEmpty soup url,
    extract_duration_nonEmpty soup, extract_twitter_handle_nonEmpty soup,
    extract_canonical_url_nonEmpty soup, extract_favicon_nonEmpty soup url,
    extract_keywords_nonEmpty soup⟩

/-- Claim C5: for every keywords meta content string, the extracted
keywords field is the comma-split, piece-trimmed, empty-dropped sequence
of the content, and it is absent rather than empty when nothing remains. -/
theorem c5_keywords_roundtrip (s : PyStr) :
    extract_keywords [Tag.meta none (some ("keywords".toList)) (some s)] =
      keywordsSpec s := by
  have hcomma : isPySpace ',' = false := by decide
  by_cases hs : s = []
  · subst hs
    decide
  · have hmt : extract_meta_tag [Tag.meta none (some ("keywords".toList)) (some s)]
        ("keywords".toList) = some (pyStrip s) :=
      extract_meta_tag_name_hit (Or.inl rfl) rfl rfl hs
    simp only [extract_keywords, hmt]
    by_cases hps : pyStrip s = []
    · rw [if_pos hps]
      have hall := pyStrip_eq_nil_all_space hps
      have hnosep : ∀ c ∈ s, ¬ c = ',' := by
        intro c hc he
        rw [he] at hc
        have h2 := hall ',' hc
        rw [hcomma] at h2
        exact absurd h2 (by simp)
      unfold keywordsSpec
      rw [pySplitOn_no_sep ',' s hnosep]
      simp [hps]
    · rw [if_neg hps]
      unfold keywordsSpec
      rw [stripMap_split_strip hcomma s]

/-- Claim C10: when a property-keyed meta tag for the key exists but has
a missing or empty content attribute, the lookup does not return absent:
it falls through to the name probe, and a name-keyed tag supplies the
value. -/
theorem c10_meta_fallthrough (soup : Soup) (key : PyStr) (tg tg2 : Tag) (c : PyStr)
    (h1 : findMetaByProp soup key = some tg)
    (h2 : contentOf tg = none ∨ contentOf tg = some [])
    (h3 : findMetaByName soup key = some tg2)
    (h4 : contentOf tg2 = some c) (h5 : ¬ c = []) :
    extract_meta_tag soup key = some (pyStrip c) :=
  extract_meta_tag_name_hit (Or.inr ⟨tg, h1, h2⟩) h3 h4 h5

/-- Witness for C10: an og:title property tag with empty content is
shadowed through to a name-keyed og:title tag, whose value is returned. -/
theorem c10_witness :
    extract_meta_tag
      [Tag.meta (some ("og:title".toList)) none (some []),
       Tag.meta none (some ("og:title".toList)) (some ("Name Value".toList))]
      ("og:title".toList) = some (pyStrip ("Name Value".toList)) :=
  c10_meta_fallthrough
    [Tag.meta (some ("og:title".toList)) none (some []),
     Tag.meta none (some ("og:title".toList)) (some ("Name Value".toList))]
    ("og:title".toList)
    (Tag.meta (some ("og:title".toList)) none (some []))
    (Tag.meta none (some ("og:title".toList)) (some ("Name Value".toList)))
    ("Name Value".toList)
    (by decide) (Or.inr rfl) (by decide) rfl (by decide)

/-- Claim C4: the title fallback is strict: a property-matched og:title
tag whose content trims non-empty determines the title regardless of any
twitter:title or `<title>`; and with og:title absent, a name-matched
twitter:title with non-blank content determines the title even when a
`<title>` element exists. -/
theorem c4_title_priority :
    (∀ (soup : Soup) (tg : Tag) (c : PyStr),
        findMetaByProp soup ("og:title".toList) = some tg →
        contentOf tg = some c → ¬ pyStrip c = [] →
        extract_title soup = some (pyStrip c)) ∧
    (∀ (soup : Soup) (tg : Tag) (c : PyStr),
        findMetaByProp soup ("og:title".toList) = none →
        findMetaByName soup ("og:title".toList) = none →
        findMetaByProp soup ("twitter:title".toList) = none →
        findMetaByName soup ("twitter:title".toList) = some tg →
        contentOf tg = some c → ¬ pyStrip c = [] →
        extract_title soup = some (pyStrip c)) := by
  constructor
  · intro soup tg c h1 h2 h3
    have hc : ¬ c = [] := fun he => h3 (by rw [he]; rfl)
    have hm := extract_meta_tag_prop_hit h1 h2 hc
    unfold extract_title
    rw [hm, if_pos (pyTruthy_some_iff.mpr h3)]
  · intro soup tg c h1 h2 h3 h4 h5 h6
    have hog : extract_meta_tag soup ("og:title".toList) = none :=
      extract_meta_tag_absent h1 h2
    have hc : ¬ c = [] := fun he => h6 (by rw [he]; rfl)
    have htw : extract_meta_tag soup ("twitter:title".toList) = some (pyStrip c) :=
      extract_meta_tag_name_hit (Or.inl h3) h4 h5 hc
    unfold extract_title
    rw [hog, if_neg (by simp [pyTruthy]), htw, if_pos (pyTruthy_some_iff.mpr h6)]

/-- Witness for C4: og:title wins against both a twitter:title and a
`<title>`; with og:title absent, twitter:title wins against `<title>`. -/
theorem c4_witness :
    extract_title [Tag.meta (some ("og:title".toList)) none (some (" OG Title ".toList)),
        Tag.meta none (some ("twitter:title".toList)) (some ("Tw".toList)),
        Tag.title (some ("Doc".toList))] = some (pyStrip (" OG Title ".toList)) ∧
      extract_title [Tag.meta none (some ("twitter:title".toList)) (some ("Tw".toList)),
        Tag.title (some ("Doc".toList))] = some (pyStrip ("Tw".toList)) := by
  constructor
  · exact c4_title_priority.1
      [Tag.meta (some ("og:title".toList)) none (some (" OG Title ".toList)),
        Tag.meta none (some ("twitter:title".toList)) (some ("Tw".toList)),
        Tag.title (some ("Doc".toList))]
      (Tag.meta (some ("og:title".toList)) none (some (" OG Title ".toList)))
      (" OG Title ".toList) (by decide) rfl (by decide)
  · exact c4_title_priority.2
      [Tag.meta none (some ("twitter:title".toList)) (some ("Tw".toList)),
        Tag.title (some ("Doc".toList))]
      (Tag.meta none (some ("twitter:title".toList)) (some ("Tw".toList)))
      ("Tw".toList) (by decide) (by decide) (by decide) (by decide) rfl (by decide)

/-- Claim C1 counterexample: a relative `rel=canonical` href is stored
verbatim in canonical_url: it is not an absolute URL and differs from its
resolution against the page URL. -/
theorem c1_counterexample :
    (parse_html [Tag.link (some [("canonical".toList)]) (some ("/page".toList))]
        ("https://example.com/a".toList)).canonical_url = some ("/page".toList) ∧
      isAbsoluteUrl ("/page".toList) = false ∧
      ¬ urljoin ("https://example.com/a".toList) ("/page".toList) = ("/page".toList) := by
  refine ⟨by decide, by decide, by decide⟩

/-- Claim C1 (amended): the resolved URL-valued fields image, video_url,
audio_url and favicon are each either absent or the urljoin-resolution of
a non-empty markup-supplied reference against the page URL, hence
absolute whenever the page URL is absolute; canonical_url is exempt from
the invariant, being stored verbatim. -/
theorem c1_resolved_url_fields (soup : Soup) (url : PyStr)
    (hb : isAbsoluteUrl url = true) :
    (∀ v, (parse_html soup url).image = some v →
      isAbsoluteUrl v = true ∧ ∃ r, ¬ r = [] ∧ v = urljoin url r ∧
        (extract_meta_tag soup ("og:image".toList) = some r ∨
          extract_meta_tag soup ("twitter:image".toList) = some r)) ∧
    (∀ v, (parse_html soup url).video_url = some v →
      isAbsoluteUrl v = true ∧ ∃ r, ¬ r = [] ∧ v = urljoin url r ∧
        (extract_meta_tag soup ("og:video:url".toList) = some r ∨
          extract_meta_tag soup ("og:video".toList) = some r ∨
          extract_meta_tag soup ("og:video:secure_url".toList) = some r)) ∧
    (∀ v, (parse_html soup url).audio_url = some v →
      isAbsoluteUrl v = true ∧ ∃ r, ¬ r = [] ∧ v = urljoin url r ∧
        (extract_meta_tag soup ("og:audio:url".toList) = some r ∨
          extract_meta_tag soup ("og:audio".toList) = some r)) ∧
    (∀ v, (parse_html soup url).favicon = some v →
      isAbsoluteUrl v = true ∧ ∃ r tg, ¬ r = [] ∧ v = urljoin url r ∧
        tg ∈ soup ∧ hrefOf tg = some r) := by
  refine ⟨?_, ?_, ?_, ?_⟩
  · intro v hv
    have hv' : extract_image soup url = some v := hv
    unfold extract_image at hv'
    rcases ite_map_some hv' with ⟨r, hr, hne, hveq⟩ | h2
    · subst hveq
      exact ⟨urljoin_absolute hb r, r, hne, rfl, Or.inl hr⟩
    rcases ite_map_some h2 with ⟨r, hr, hne, hveq⟩ | h3
    · subst hveq
      exact ⟨urljoin_absolute hb r, r, hne, rfl, Or.inr hr⟩
    · exact absurd h3 (by simp)
  · intro v hv
    have hv' : extract_video_url soup url = some v := hv
    unfold extract_video_url at hv'
    rcases ite_map_some hv' with ⟨r, hr, hne, hveq⟩ | h2
    · subst hveq
      exact ⟨urljoin_absolute hb r, r, hne, rfl, Or.inl hr⟩
    rcases ite_map_some h2 with ⟨r, hr, hne, hveq⟩ | h3
    · subst hveq
      exact ⟨urljoin_absolute hb r, r, hne, rfl, Or.inr (Or.inl hr)⟩
    rcases ite_map_some h3 with ⟨r, hr, hne, hveq⟩ | h4
    · subst hveq
      exact ⟨urljoin_absolute hb r, r, hne, rfl, Or.inr (Or.inr hr)⟩
    · exact absurd h4 (by simp)
  · intro v hv
    have hv' : extract_audio_url soup url = some v := hv
    unfold extract_audio_url at hv'
    rcases ite_map_some hv' with ⟨r, hr, hne, hveq⟩ | h2
    · subst hveq
      exact ⟨urljoin_absolute hb r, r, hne, rfl, Or.inl hr⟩
    rcases ite_map_some h2 with ⟨r, hr, hne, hveq⟩ | h3
    · subst hveq
      exact ⟨urljoin_absolute hb r, r, hne, rfl, Or.inr hr⟩
    · exact absurd h3 (by simp)
  · intro v hv
    have hv' : extract_favicon soup url = some v := hv
    unfold extract_favicon at hv'
    split at hv'
    next v1 h1 =>
      obtain ⟨l, h0, hf, hh, hne, hveq⟩ := faviconFromRel_some h1
      injection hv' with hv2
      exact ⟨by rw [← hv2, hveq]; exact urljoin_absolute hb h0,
        h0, l, hne, hv2.symm.trans hveq, List.mem_of_find?_eq_some hf, hh⟩
    next =>
    split at hv'
    next v1 h1 =>
      obtain ⟨l, h0, hf, hh, hne, hveq⟩ := faviconFromRel_some h1
      injection hv' with hv2
      exact ⟨by rw [← hv2, hveq]; exact urljoin_absolute hb h0,
        h0, l, hne, hv2.symm.trans hveq, List.mem_of_find?_eq_some hf, hh⟩
    next =>
    split at hv'
    next v1 h1 =>
      obtain ⟨l, h0, hf, hh, hne, hveq⟩ := faviconFromRel_some h1
      injection hv' with hv2
      exact ⟨by rw [← hv2, hveq]; exact urljoin_absolute hb h0,
        h0, l, hne, hv2.symm.trans hveq, List.mem_of_find?_eq_some hf, hh⟩
    next =>
    split at hv'
    next l h4 =>
      split at hv'
      next h0 hh =>
        by_cases h5 : h0 = []
        · rw [if_pos h5] at hv'
          exact absurd hv' (by simp)
        · rw [if_neg h5] at hv'
          injection hv' with hv2
          exact ⟨by rw [← hv2]; exact urljoin_absolute hb h0,
            h0, l, h5, hv2.symm, List.mem_of_find?_eq_some h4, hh⟩
      next => exact absurd hv' (by simp)
    next => exact absurd hv' (by simp)

/-- Witness for C1's amended theorem: a relative twitter:image on an
absolute page URL yields an image equal to its resolution, and the
resolution is the expected absolute URL. -/
theorem c1_witness :
    isAbsoluteUrl ("https://site.test/page".toList) = true ∧
      (parse_html [Tag.meta none (some ("twitter:image".toList)) (some ("/img.png".toList))]
          ("https://site.test/page".toList)).image =
        some (urljoin ("https://site.test/page".toList) ("/img.png".toList)) ∧
      (isAbsoluteUrl (urljoin ("https://site.test/page".toList) ("/img.png".toList)) = true ∧
        ∃ r, ¬ r = [] ∧
          urljoin ("https://site.test/page".toList) ("/img.png".toList) =
            urljoin ("https://site.test/page".toList) r ∧
          (extract_meta_tag
              [Tag.meta none (some ("twitter:image".toList)) (some ("/img.png".toList))]
              ("og:image".toList) = some r ∨
            extract_meta_tag
              [Tag.meta none (some ("twitter:image".toList)) (some ("/img.png".toList))]
              ("twitter:image".toList) = some r)) :=
  ⟨by decide, by decide,
    (c1_resolved_url_fields
        [Tag.meta none (some ("twitter:image".toList)) (some ("/img.png".toList))]
        ("https://site.test/page".toList) (by decide)).1
      (urljoin ("https://site.test/page".toList) ("/img.png".toList)) (by decide)⟩
